import Mathlib

/-!
# Verification development for `builder/qingcloud/builder.go`

A shallow embedding of the QingCloud image builder: the state bag it shares
with its steps, the host and SSH-credential resolution handed to the connect
step, the step runner it delegates to, and the post-run conversion of the
final bag into an artifact or an error.
-/

namespace Qingcloud

/-! ## Bag keys (the constants of `builder.go`) -/

def BuilderConfig : String := "config"
def UI : String := "ui"
def InstanceID : String := "instancd_id"
def ImageID : String := "image_id"
def SecurityGroupID : String := "security_group_id"
def EIPID : String := "eip_id"
def PublicIP : String := "public_ip"
def PrivateIP : String := "private_ip"
def LoginKeyPairID : String := "keypair_id"
def PrivateKey : String := "private_key_content"
def Password : String := "password"

def BuilderId : String := "qingcloud.builder"

/-! ## Data model -/

/-- Go errors, carried as their message text. -/
abbrev Error := String

/-- The communicator configuration embedded in `Config`; `builder.go` reads
only its SSH user name (through field promotion, `config.SSHUsername`). -/
structure CommConfig where
  SSHUsername : String
  deriving DecidableEq, Repr

/-- The common runner configuration embedded in `Config`; `builder.go` only
passes it on to `NewRunner`. -/
structure PackerConfig where
  PackerDebug : Bool
  PackerOnError : String
  deriving DecidableEq, Repr

/-- The builder configuration. Its declaration lives outside `builder.go`;
the fields kept here are the ones `builder.go` touches (`Comm` is the
embedded `communicator.Config`, written `b.config.Config` in Go). -/
structure Config where
  PackerConfig : PackerConfig
  Comm : CommConfig
  Zone : String
  deriving DecidableEq, Repr

/-- Field promotion of the embedded communicator configuration. -/
def Config.SSHUsername (c : Config) : String := c.Comm.SSHUsername

/-- A handle on the caller's output sink (`packersdk.Ui`). -/
structure Ui where
  id : Nat
  deriving DecidableEq, Repr

/-- A handle on the caller's provisioning hook (`packersdk.Hook`). -/
structure Hook where
  id : Nat
  deriving DecidableEq, Repr

/-- The dynamic values (`interface{}`) a bag entry can hold: the nil
interface, a string, a `Config`, the two capability handles, and `other`
standing for a value of any further dynamic type. -/
inductive Value where
  | nil
  | str (s : String)
  | config (c : Config)
  | ui (u : Ui)
  | hook (h : Hook)
  | other (tag : Nat)
  deriving DecidableEq, Repr

/-- The checked type assertion `v.(string)` in its two-result form: the
string and `true`, or the zero value and `false`. -/
def Value.assertString : Value → String × Bool
  | .str s => (s, true)
  | _ => ("", false)

/-- Modelled from the spec: the state bag of section 4.1, a mapping from
string keys to dynamic values together with an independent cancellation/halt
flag, with the contract `put`, `get`, `getOk`, `cancel`, `halted`. Its
implementation is not part of `builder.go`. -/
structure StateBag where
  data : String → Option Value
  flag : Bool

/-- Modelled from the spec: a freshly created bag, `new(BasicStateBag)`. -/
def StateBag.new : StateBag := { data := fun _ => none, flag := false }

/-- Modelled from the spec: `put(key, value)`. -/
def StateBag.Put (b : StateBag) (k : String) (v : Value) : StateBag :=
  { b with data := fun j => if j = k then some v else b.data j }

/-- Modelled from the spec: `getOk(key) → (value, present-bool)`. -/
def StateBag.GetOk (b : StateBag) (k : String) : Value × Bool :=
  match b.data k with
  | some v => (v, true)
  | none => (Value.nil, false)

/-- Modelled from the spec: `get(key) → value or absent`; absence is the nil
interface value. -/
def StateBag.Get (b : StateBag) (k : String) : Value := (b.GetOk k).1

/-- Modelled from the spec: `cancel()`. -/
def StateBag.cancel (b : StateBag) : StateBag := { b with flag := true }

/-- Modelled from the spec: `halted() → bool`. -/
def StateBag.halted (b : StateBag) : Bool := b.flag

/-- A parsed private key (`gossh.Signer`). -/
structure Signer where
  id : Nat
  deriving DecidableEq, Repr

/-- An SSH authentication method (`gossh.AuthMethod`), built by
`gossh.PublicKeys` or `gossh.Password`. -/
inductive AuthMethod where
  | PublicKeys (signer : Signer)
  | Password (secret : String)
  deriving DecidableEq, Repr

/-- The host-key policy of a client configuration. -/
inductive HostKeyCallback where
  | InsecureIgnoreHostKey
  deriving DecidableEq, Repr

/-- The fields of `gossh.ClientConfig` that `getSSHConfig` fills in. -/
structure ClientConfig where
  User : String
  Auth : List AuthMethod
  HostKeyCallback : HostKeyCallback
  deriving DecidableEq, Repr

/-- A handle on the image-management capability of one zone. -/
structure ImageService where
  id : Nat
  deriving DecidableEq, Repr

/-- The artifact handed back by a successful run. -/
structure ImageArtifact where
  ImageID : String
  ImageService : ImageService
  deriving DecidableEq, Repr

/-- The external collaborators `builder.go` calls into: the IP syntax check
of the validator library, the private-key parser of the SSH library, and the
image service obtained from the configured cloud service for a zone (the
error result of that lookup is discarded by the caller). -/
structure Deps where
  IsIP : String → Bool
  ParsePrivateKey : String → Except Error Signer
  Image : Config → String → ImageService

/-- What a Go call with results `(*T, error)` can do: return a pair, or fault
(a run-time panic, here always a failed unchecked type assertion). -/
inductive Outcome (α : Type) where
  | ret (val : Option α) (err : Option Error)
  | fault
  deriving DecidableEq, Repr

/-- The builder: its configuration (the runner field is assigned inside
`Run` and never read back). -/
structure Builder where
  config : Config
  deriving DecidableEq, Repr

/-! ## Host and credential resolution -/

/-- Embedding of `Builder.getHost` (builder.go, lines 102-112). -/
def Builder.getHost (deps : Deps) (_b : Builder) (state : StateBag) : String × Option Error :=
  let (publicIP, ok) := (state.Get PublicIP).assertString
  if ok && deps.IsIP publicIP then
    (publicIP, none)
  else
    let (privateIP, ok) := (state.Get PrivateIP).assertString
    if ok && deps.IsIP privateIP then
      (privateIP, none)
    else
      ("", some "neither public ip nor private ip is valid")

/-- Embedding of `Builder.getSSHConfig` (builder.go, lines 114-134). The assertion
`state.Get(BuilderConfig).(Config)` is unchecked and faults on any other
value; the two string assertions are checked. -/
def Builder.getSSHConfig (deps : Deps) (_b : Builder) (state : StateBag) : Outcome ClientConfig :=
  let auth : List AuthMethod := []
  match state.Get BuilderConfig with
  | .config config =>
    let (privateKey, ok) := (state.Get PrivateKey).assertString
    let keyed : Except Error (List AuthMethod) :=
      if ok then
        match deps.ParsePrivateKey privateKey with
        | .error err => .error ("failed to set up ssh config：" ++ err)
        | .ok signer => .ok (auth ++ [AuthMethod.PublicKeys signer])
      else
        .ok auth
    match keyed with
    | .error err => .ret none (some err)
    | .ok auth =>
      let (password, ok) := (state.Get Password).assertString
      let auth := if ok then auth ++ [AuthMethod.Password password] else auth
      .ret (some { User := config.SSHUsername, Auth := auth,
                   HostKeyCallback := .InsecureIgnoreHostKey }) none
  | _ => .fault

/-! ## Steps and the runner -/

/-- The steps `Run` assembles, by their Go type. `StepConnect` carries the
communicator configuration and the two resolution callbacks it is given. -/
inductive Step where
  | StepEnsureSecurityGroup
  | StepEnsureKeypair
  | StepCreateVM
  | StepEnsureIP
  | StepConnect (Config : CommConfig) (Host : StateBag → String × Option Error)
      (SSHConfig : StateBag → Outcome ClientConfig)
  | StepProvision
  | StepShutDownVM
  | StepBuildImage

/-- The step variants named by the specification (section 2). -/
inductive StepKind where
  | EnsureSecurityGroup
  | EnsureKeypair
  | CreateInstance
  | EnsureElasticIP
  | ConnectRemote
  | RunProvisioners
  | ShutdownInstance
  | CaptureImage
  deriving DecidableEq, Repr

/-- Which specification variant each Go step type implements. -/
def Step.kind : Step → StepKind
  | .StepEnsureSecurityGroup => .EnsureSecurityGroup
  | .StepEnsureKeypair => .EnsureKeypair
  | .StepCreateVM => .CreateInstance
  | .StepEnsureIP => .EnsureElasticIP
  | .StepConnect _ _ _ => .ConnectRemote
  | .StepProvision => .RunProvisioners
  | .StepShutDownVM => .ShutdownInstance
  | .StepBuildImage => .CaptureImage

/-- Modelled from the spec: the outcome of a step's forward action
(section 4.2), `Continue` or `Halt`. -/
inductive StepAction where
  | ActionContinue
  | ActionHalt
  deriving DecidableEq, Repr

/-- Modelled from the spec: the behaviour of the steps (section 4.2), which
are implemented outside `builder.go`. A forward action reads and writes the
bag and returns an outcome; a compensating action reads and writes the bag.
Everything else a step touches (the provider, the remote session, what it
sees of the context) is the world `ω`, threaded through explicitly. -/
structure StepSem (ω : Type) where
  run : Step → ω → StateBag → StepAction × ω × StateBag
  cleanup : Step → ω → StateBag → ω × StateBag

/-- Modelled from the spec: the cancellation signal of the context, as the
runner sees it (section 5: it is checked at the top of each step
invocation). `cancelled i` is what the check before the step at position `i`
(counted from 1) observes. -/
structure Context where
  cancelled : Nat → Bool

/-- What the runner did, in order: `ran i a` is a call of the forward action
of the step at position `i` (counted from 1) that returned `a`; `cleaned i`
is a call of its compensating action. -/
inductive Event where
  | ran (pos : Nat) (action : StepAction)
  | cleaned (pos : Nat)
  deriving DecidableEq, Repr

/-- The state at the end of the runner's forward pass: the steps whose
forward action was invoked, in arrival order, with their positions. -/
structure Forward (ω : Type) where
  executed : List (Nat × Step)
  log : List Event
  world : ω
  bag : StateBag
  completed : Bool

/-- The result of one runner pass. `success` is the runner's overall result
(section 4.3, item 4). -/
structure Report (ω : Type) where
  world : ω
  bag : StateBag
  log : List Event
  success : Bool

/-- Modelled from the spec: the runner of section 4.3, which is implemented
outside `builder.go`. -/
structure Runner where
  Steps : List Step

/-- Modelled from the spec: items 1 and 2 of the runner algorithm (section
4.3). Steps are visited in order; before each forward action the bag's halt
flag and the context are checked and the pass stops if either is set; every
step whose forward action is invoked is recorded; a `Halt` outcome ends the
pass. -/
def Runner.forward {ω : Type} (sem : StepSem ω) (ctx : Context) :
    Nat → List Step → ω → StateBag → Forward ω
  | _, [], w, bag =>
    { executed := [], log := [], world := w, bag := bag, completed := true }
  | pos, s :: rest, w, bag =>
    if bag.halted || ctx.cancelled pos then
      { executed := [], log := [], world := w, bag := bag, completed := false }
    else
      match sem.run s w bag with
      | (.ActionHalt, w1, bag1) =>
        { executed := [(pos, s)], log := [Event.ran pos .ActionHalt],
          world := w1, bag := bag1, completed := false }
      | (.ActionContinue, w1, bag1) =>
        let r := Runner.forward sem ctx (pos + 1) rest w1 bag1
        { r with executed := (pos, s) :: r.executed,
                 log := Event.ran pos .ActionContinue :: r.log }

/-- Modelled from the spec: the compensating actions of the given steps,
called one after the other in the order of the list. -/
def Runner.unwind {ω : Type} (sem : StepSem ω) :
    List (Nat × Step) → ω → StateBag → List Event × ω × StateBag
  | [], w, bag => ([], w, bag)
  | (pos, s) :: rest, w, bag =>
    match sem.cleanup s w bag with
    | (w1, bag1) =>
      match Runner.unwind sem rest w1 bag1 with
      | (log, w2, bag2) => (Event.cleaned pos :: log, w2, bag2)

/-- Modelled from the spec: `run(context, steps[], bag)` of section 4.3: the
forward pass, then the executed list walked in reverse calling `cleanup`
(item 3); success iff the forward pass reached the end of the steps (item 4). -/
def Runner.Run {ω : Type} (r : Runner) (sem : StepSem ω) (ctx : Context) (w : ω)
    (state : StateBag) : Report ω :=
  let f := Runner.forward sem ctx 1 r.Steps w state
  match Runner.unwind sem f.executed.reverse f.world f.bag with
  | (log, w1, bag1) =>
    { world := w1, bag := bag1, log := f.log ++ log, success := f.completed }

/-- Modelled from the spec: `NewRunner(steps, config, ui)`; the specification
knows one runner, whose only parameter is the step sequence. -/
def NewRunner (steps : List Step) (_config : PackerConfig) (_ui : Ui) : Runner :=
  { Steps := steps }

/-! ## The builder's run -/

/-- The bag as seeded by `Run` (builder.go, lines 67-70). -/
def Builder.Run.setup (b : Builder) (ui : Ui) (hook : Hook) : StateBag :=
  let state := StateBag.new
  let state := state.Put BuilderConfig (.config b.config)
  let state := state.Put UI (.ui ui)
  let state := state.Put "hook" (.hook hook)
  state

/-- The step list built by `Run` (builder.go, lines 73-86). -/
def Builder.Run.steps (deps : Deps) (b : Builder) : List Step :=
  [ .StepEnsureSecurityGroup,
    .StepEnsureKeypair,
    .StepCreateVM,
    .StepEnsureIP,
    .StepConnect b.config.Comm (b.getHost deps) (b.getSSHConfig deps),
    .StepProvision,
    .StepShutDownVM,
    .StepBuildImage ]

/-- The runner pass started by `Run` (builder.go, lines 87-88). -/
def Builder.Run.report {ω : Type} (deps : Deps) (sem : StepSem ω) (b : Builder)
    (ctx : Context) (ui : Ui) (hook : Hook) (w : ω) : Report ω :=
  (NewRunner (Builder.Run.steps deps b) b.config.PackerConfig ui).Run sem ctx w
    (Builder.Run.setup b ui hook)

/-- Embedding of `Builder.Run` (builder.go, lines 65-100). After the runner pass the bag
is asked for the image identifier; when the key is absent the value returned
by `GetOk` is the nil interface, which `%v` prints as `<nil>`. The assertion
`imageID.(string)` is unchecked and faults on any other value. -/
def Builder.Run {ω : Type} (deps : Deps) (sem : StepSem ω) (b : Builder)
    (ctx : Context) (ui : Ui) (hook : Hook) (w : ω) : Outcome ImageArtifact :=
  let state := (Builder.Run.report deps sem b ctx ui hook w).bag
  let (imageID, ok) := state.GetOk ImageID
  if !ok then
    .ret none (some "Failed to get image id:<nil>")
  else
    let imageService := deps.Image b.config b.config.Zone
    match imageID with
    | .str s => .ret (some { ImageID := s, ImageService := imageService }) none
    | _ => .fault

/-! ## What the steps themselves receive -/

/-- A call as the step receiving it sees it: its forward action was invoked
and returned the given outcome, or its compensating action was invoked. -/
inductive Call where
  | run (s : Step) (action : StepAction)
  | cleanup (s : Step)

/-- The same step behaviours, with every step writing each call it receives,
when it receives it, at the end of a journal kept next to the world. The
journal is written by the steps, not by the runner. -/
def StepSem.recording {ω : Type} (sem : StepSem ω) : StepSem (ω × List Call) :=
  { run := fun s w bag =>
      let r := sem.run s w.1 bag
      (r.1, (r.2.1, w.2 ++ [Call.run s r.1]), r.2.2),
    cleanup := fun s w bag =>
      let r := sem.cleanup s w.1 bag
      ((r.1, w.2 ++ [Call.cleanup s]), r.2) }

/-- The forward actions of the listed steps applied one after the other to
the world and the bag, whatever they return. -/
def runAll {ω : Type} (sem : StepSem ω) : List Step → ω → StateBag → ω × StateBag
  | [], w, bag => (w, bag)
  | s :: rest, w, bag => runAll sem rest (sem.run s w bag).2.1 (sem.run s w bag).2.2

/-- The compensating actions of the listed steps applied one after the other
to the world and the bag. -/
def cleanupAll {ω : Type} (sem : StepSem ω) : List Step → ω → StateBag → ω × StateBag
  | [], w, bag => (w, bag)
  | s :: rest, w, bag => cleanupAll sem rest (sem.cleanup s w bag).1 (sem.cleanup s w bag).2

/-! ## Predicates used to state the properties -/

/-- The bag holds, under the key, a string that is a syntactically valid IP. -/
def validIPAt (deps : Deps) (state : StateBag) (key : String) : Prop :=
  ∃ s, state.Get key = .str s ∧ deps.IsIP s = true

/-- Some step returned `Halt` during the pass. -/
def Report.someStepHalted {ω : Type} (r : Report ω) : Prop :=
  ∃ k, Event.ran k .ActionHalt ∈ r.log

/-- The context was cancelled at one of the runner's checks. -/
def Context.wasCancelled (ctx : Context) : Prop :=
  ∃ i, ctx.cancelled i = true

/-! ## Sample collaborators and inputs for concrete evaluation -/

/-- Sample collaborators: two addresses count as valid IPs, one key text
parses, and each zone has an image service. -/
def sampleDeps : Deps :=
  { IsIP := fun s => s = "203.0.113.5" || s = "10.0.0.2",
    ParsePrivateKey := fun s =>
      if s = "KEY" then .ok { id := 1 } else .error "ssh: no key found",
    Image := fun _ zone => { id := zone.length } }

/-- A sample builder for zone `pek3a` with SSH user `root`. -/
def sampleBuilder : Builder :=
  { config := { PackerConfig := { PackerDebug := false, PackerOnError := "" },
                Comm := { SSHUsername := "root" },
                Zone := "pek3a" } }

/-- A sample output sink. -/
def sampleUi : Ui := { id := 7 }

/-- A sample hook. -/
def sampleHook : Hook := { id := 9 }

/-- A context that is never cancelled. -/
def ctxNever : Context := { cancelled := fun _ => false }

/-- A context observed cancelled from the check before step 4 on. -/
def ctxCancelAt4 : Context := { cancelled := fun i => decide (4 ≤ i) }

/-- Public and private address both valid. -/
def bagBoth : StateBag :=
  (StateBag.new.Put PublicIP (.str "203.0.113.5")).Put PrivateIP (.str "10.0.0.2")

/-- Public address empty, private address valid. -/
def bagPrivateOnly : StateBag :=
  (StateBag.new.Put PublicIP (.str "")).Put PrivateIP (.str "10.0.0.2")

/-- Public address absent, private address valid. -/
def bagPublicAbsent : StateBag :=
  StateBag.new.Put PrivateIP (.str "10.0.0.2")

/-- Public address not an IP, private address empty. -/
def bagNoAddress : StateBag :=
  (StateBag.new.Put PublicIP (.str "not-an-ip")).Put PrivateIP (.str "")

/-- A seeded bag with a key that parses and a password. -/
def bagKeyAndPassword : StateBag :=
  ((Builder.Run.setup sampleBuilder sampleUi sampleHook).Put PrivateKey (.str "KEY")).Put
    Password (.str "secret")

/-- A seeded bag with a key that does not parse and a password. -/
def bagBadKey : StateBag :=
  ((Builder.Run.setup sampleBuilder sampleUi sampleHook).Put PrivateKey (.str "garbage")).Put
    Password (.str "secret")

/-- An unseeded bag with a key that does not parse and a password. -/
def bagBadKeyNoConfig : StateBag :=
  (StateBag.new.Put PrivateKey (.str "garbage")).Put Password (.str "secret")

/-- The client configuration expected for `bagKeyAndPassword`. -/
def sampleClientConfig : ClientConfig :=
  { User := "root",
    Auth := [AuthMethod.PublicKeys { id := 1 }, AuthMethod.Password "secret"],
    HostKeyCallback := .InsecureIgnoreHostKey }

/-- Steps that all continue and write nothing. -/
def semContinue : StepSem Unit :=
  { run := fun _ w bag => (.ActionContinue, w, bag),
    cleanup := fun _ w bag => (w, bag) }

/-- Steps that all continue; the capture step writes the image identifier. -/
def semCapture : StepSem Unit :=
  { run := fun s w bag =>
      match s with
      | .StepBuildImage => (.ActionContinue, w, bag.Put ImageID (.str "img-1"))
      | _ => (.ActionContinue, w, bag),
    cleanup := fun _ w bag => (w, bag) }

/-- The capture step writes the image identifier and then halts. -/
def semCaptureThenHalt : StepSem Unit :=
  { run := fun s w bag =>
      match s with
      | .StepBuildImage => (.ActionHalt, w, bag.Put ImageID (.str "img-1"))
      | _ => (.ActionContinue, w, bag),
    cleanup := fun _ w bag => (w, bag) }

/-- The instance-creation step halts. -/
def semHaltAtCreate : StepSem Unit :=
  { run := fun s w bag =>
      match s with
      | .StepCreateVM => (.ActionHalt, w, bag)
      | _ => (.ActionContinue, w, bag),
    cleanup := fun _ w bag => (w, bag) }

/-- The capture step writes a value that is not a string under the image
identifier key. -/
def semCaptureNonString : StepSem Unit :=
  { run := fun s w bag =>
      match s with
      | .StepBuildImage => (.ActionContinue, w, bag.Put ImageID (.other 42))
      | _ => (.ActionContinue, w, bag),
    cleanup := fun _ w bag => (w, bag) }

/-! ## Basic facts about the bag and type assertions -/

theorem validIPAt_iff (deps : Deps) (state : StateBag) (key : String) :
    validIPAt deps state key ↔
      ((state.Get key).assertString.2 && deps.IsIP (state.Get key).assertString.1) = true := by
  unfold validIPAt
  cases h : state.Get key <;> simp [Value.assertString]

/-! ## Host resolution -/

/-- C1: `getHost` selects the host by preference. If the value under
`public_ip` is a string that is a valid IP, that string is returned with no
error, whatever is stored under `private_ip`; otherwise, if the value under
`private_ip` is a string that is a valid IP, that string is returned with no
error. -/
theorem getHost_prefers_public_then_private (deps : Deps) (b : Builder) (state : StateBag) :
    (∀ p, state.Get PublicIP = .str p → deps.IsIP p = true →
        b.getHost deps state = (p, none)) ∧
    (∀ q, ¬ validIPAt deps state PublicIP →
        state.Get PrivateIP = .str q → deps.IsIP q = true →
        b.getHost deps state = (q, none)) := by
  refine ⟨?_, ?_⟩
  · intro p hp hv
    simp [Builder.getHost, hp, Value.assertString, hv]
  · intro q hpub hq hv
    rw [validIPAt_iff] at hpub
    simp only [Builder.getHost]
    rw [if_neg hpub]
    simp [hq, Value.assertString, hv]

/-- C2: `getHost` returns an error, together with the empty host string, if
and only if neither the value under `public_ip` nor the value under
`private_ip` is a string that is a valid IP; and every host returned without
error is a valid IP. -/
theorem getHost_error_iff_no_valid_ip (deps : Deps) (b : Builder) (state : StateBag) :
    ((b.getHost deps state).2 ≠ none ↔
        (¬ validIPAt deps state PublicIP ∧ ¬ validIPAt deps state PrivateIP)) ∧
    ((b.getHost deps state).2 ≠ none → (b.getHost deps state).1 = "") ∧
    ((b.getHost deps state).2 = none → deps.IsIP (b.getHost deps state).1 = true) := by
  rw [validIPAt_iff, validIPAt_iff]
  simp only [Builder.getHost]
  by_cases h1 : ((state.Get PublicIP).assertString.2 &&
      deps.IsIP (state.Get PublicIP).assertString.1) = true
  · rw [if_pos h1]
    simp at h1
    simp [h1]
  · rw [if_neg h1]
    by_cases h2 : ((state.Get PrivateIP).assertString.2 &&
        deps.IsIP (state.Get PrivateIP).assertString.1) = true
    · rw [if_pos h2]
      simp at h2
      simp [h2]
    · rw [if_neg h2]
      simp [h1, h2]

/-- Witness for C1, on the examples of the specification: both addresses
valid, public address empty, public address absent. -/
theorem getHost_prefers_public_then_private_witness :
    sampleBuilder.getHost sampleDeps bagBoth = ("203.0.113.5", none) ∧
    sampleBuilder.getHost sampleDeps bagPrivateOnly = ("10.0.0.2", none) ∧
    sampleBuilder.getHost sampleDeps bagPublicAbsent = ("10.0.0.2", none) :=
  ⟨(getHost_prefers_public_then_private sampleDeps sampleBuilder bagBoth).1
      "203.0.113.5" (by decide) (by decide),
   (getHost_prefers_public_then_private sampleDeps sampleBuilder bagPrivateOnly).2
      "10.0.0.2" (by rw [validIPAt_iff]; decide) (by decide) (by decide),
   (getHost_prefers_public_then_private sampleDeps sampleBuilder bagPublicAbsent).2
      "10.0.0.2" (by rw [validIPAt_iff]; decide) (by decide) (by decide)⟩

/-- Witness for C2: the failing example of the specification. -/
theorem getHost_error_iff_no_valid_ip_witness :
    sampleBuilder.getHost sampleDeps bagNoAddress =
      ("", some "neither public ip nor private ip is valid") ∧
    (sampleBuilder.getHost sampleDeps bagNoAddress).2 ≠ none :=
  ⟨by decide,
   (getHost_error_iff_no_valid_ip sampleDeps sampleBuilder bagNoAddress).1.2
     ⟨by rw [validIPAt_iff]; decide, by rw [validIPAt_iff]; decide⟩⟩

/-! ## SSH credential resolution -/

/-- C6: when `getSSHConfig` succeeds, the returned `Auth` list is the key
part followed by the password part: the key part is one key-based method
(from the parsed signer) if a string is stored under `private_key_content`
and empty otherwise; the password part is one password method if a string is
stored under `password` and empty otherwise. The returned `User` is the
`SSHUsername` of the config stored under `config`. -/
theorem getSSHConfig_auth_in_order (deps : Deps) (b : Builder) (state : StateBag)
    (val : Option ClientConfig) (h : b.getSSHConfig deps state = .ret val none) :
    ∃ cc config keyPart pwPart,
      val = some cc ∧
      cc.Auth = keyPart ++ pwPart ∧
      ((∃ k signer, state.Get PrivateKey = .str k ∧ deps.ParsePrivateKey k = .ok signer ∧
          keyPart = [AuthMethod.PublicKeys signer]) ∨
        ((∀ k, state.Get PrivateKey ≠ .str k) ∧ keyPart = [])) ∧
      ((∃ p, state.Get Password = .str p ∧ pwPart = [AuthMethod.Password p]) ∨
        ((∀ p, state.Get Password ≠ .str p) ∧ pwPart = [])) ∧
      state.Get BuilderConfig = .config config ∧
      cc.User = config.SSHUsername := by
  unfold Builder.getSSHConfig at h
  cases hc : state.Get BuilderConfig
  case config config =>
    rw [hc] at h
    have hpw : ∃ pwPart,
        (if (state.Get Password).assertString.2 = true then
          [AuthMethod.Password (state.Get Password).assertString.1] else []) = pwPart ∧
        ((∃ p, state.Get Password = .str p ∧ pwPart = [AuthMethod.Password p]) ∨
          ((∀ p, state.Get Password ≠ .str p) ∧ pwPart = [])) := by
      cases hp : state.Get Password <;> simp [Value.assertString]
    obtain ⟨pwPart, hpwEq, hpwSpec⟩ := hpw
    cases hk : state.Get PrivateKey
    case str k =>
      cases hparse : deps.ParsePrivateKey k with
      | error e => simp [hk, Value.assertString, hparse] at h
      | ok signer =>
        simp only [hk, Value.assertString, hparse, if_true, List.nil_append] at h
        injection h with hval _
        refine ⟨_, config, [AuthMethod.PublicKeys signer], pwPart, hval.symm, ?_,
          Or.inl ⟨k, signer, rfl, hparse, rfl⟩, hpwSpec, rfl, rfl⟩
        rw [← hpwEq]
        cases hp : state.Get Password <;> simp [Value.assertString]
    all_goals
      simp only [hk, Value.assertString] at h
      injection h with hval _
      refine ⟨_, config, [], pwPart, hval.symm, ?_,
        Or.inr ⟨fun k => by simp, rfl⟩, hpwSpec, rfl, rfl⟩
      rw [← hpwEq]
      cases hp : state.Get Password <;> simp [Value.assertString]
  all_goals
    rw [hc] at h
    simp at h

/-- Witness for C6: key and password both present give the two methods in
the order key, password, for the seeded user. -/
theorem getSSHConfig_auth_in_order_witness :
    sampleBuilder.getSSHConfig sampleDeps bagKeyAndPassword = .ret (some sampleClientConfig) none ∧
    ∃ cc config keyPart pwPart,
      some sampleClientConfig = some cc ∧
      cc.Auth = keyPart ++ pwPart ∧
      ((∃ k signer, bagKeyAndPassword.Get PrivateKey = .str k ∧
          sampleDeps.ParsePrivateKey k = .ok signer ∧
          keyPart = [AuthMethod.PublicKeys signer]) ∨
        ((∀ k, bagKeyAndPassword.Get PrivateKey ≠ .str k) ∧ keyPart = [])) ∧
      ((∃ p, bagKeyAndPassword.Get Password = .str p ∧ pwPart = [AuthMethod.Password p]) ∨
        ((∀ p, bagKeyAndPassword.Get Password ≠ .str p) ∧ pwPart = [])) ∧
      bagKeyAndPassword.Get BuilderConfig = .config config ∧
      cc.User = config.SSHUsername :=
  ⟨by decide,
   getSSHConfig_auth_in_order sampleDeps sampleBuilder bagKeyAndPassword
     (some sampleClientConfig) (by decide)⟩

/-- C7, as stated, fails: on a bag that holds an unparsable key (and a
password) but no `Config` under `config`, `getSSHConfig` faults at the
unchecked assertion instead of returning an error. -/
theorem getSSHConfig_bad_key_without_config_faults :
    bagBadKeyNoConfig.Get PrivateKey = .str "garbage" ∧
    sampleDeps.ParsePrivateKey "garbage" = .error "ssh: no key found" ∧
    bagBadKeyNoConfig.Get Password = .str "secret" ∧
    sampleBuilder.getSSHConfig sampleDeps bagBadKeyNoConfig = .fault ∧
    ¬ ∃ e, sampleBuilder.getSSHConfig sampleDeps bagBadKeyNoConfig = .ret none (some e) := by
  refine ⟨by decide, rfl, by decide, by decide, ?_⟩
  rintro ⟨e, he⟩
  have hf : sampleBuilder.getSSHConfig sampleDeps bagBadKeyNoConfig = .fault := by decide
  rw [hf] at he
  cases he

/-- C7, amended: on every bag that holds a `Config` under `config`, a string
under `private_key_content` that fails to parse makes `getSSHConfig` return
no client config and an error, whatever is stored under `password`; and on
every bag, `getSSHConfig` returns an error only in that case, and then with
no client config. -/
theorem getSSHConfig_error_iff_key_unparsable (deps : Deps) (b : Builder) (state : StateBag) :
    (∀ config k e, state.Get BuilderConfig = .config config →
        state.Get PrivateKey = .str k → deps.ParsePrivateKey k = .error e →
        b.getSSHConfig deps state = .ret none (some ("failed to set up ssh config：" ++ e))) ∧
    (∀ val e, b.getSSHConfig deps state = .ret val (some e) →
        val = none ∧
        ∃ k e0, state.Get PrivateKey = .str k ∧ deps.ParsePrivateKey k = .error e0) := by
  refine ⟨?_, ?_⟩
  · intro config k e hc hk hp
    simp [Builder.getSSHConfig, hc, hk, Value.assertString, hp]
  · intro val e h
    unfold Builder.getSSHConfig at h
    cases hc : state.Get BuilderConfig <;> rw [hc] at h <;> simp only [reduceCtorEq] at h
    cases hk : state.Get PrivateKey with
    | str k =>
      cases hparse : deps.ParsePrivateKey k with
      | error e0 =>
        simp only [hk, Value.assertString, hparse, if_true] at h
        injection h with hval _
        exact ⟨hval.symm, k, e0, rfl, hparse⟩
      | ok signer => simp [hk, Value.assertString, hparse] at h
    | _ => simp [hk, Value.assertString] at h

/-- Witness for C7 (amended): a seeded bag with an unparsable key and a
password. -/
theorem getSSHConfig_error_iff_key_unparsable_witness :
    bagBadKey.Get Password = .str "secret" ∧
    sampleBuilder.getSSHConfig sampleDeps bagBadKey =
      .ret none (some ("failed to set up ssh config：" ++ "ssh: no key found")) :=
  ⟨by decide,
   (getSSHConfig_error_iff_key_unparsable sampleDeps sampleBuilder bagBadKey).1
     sampleBuilder.config "garbage" "ssh: no key found" (by decide) (by decide) rfl⟩

/-! ## The post-run check of `Run` -/

theorem GetOk_snd_false_iff (bag : StateBag) (k : String) :
    (bag.GetOk k).2 = false ↔ bag.data k = none := by
  unfold StateBag.GetOk
  cases bag.data k <;> simp

theorem GetOk_eq_of_data (bag : StateBag) (k : String) (v : Value)
    (h : bag.data k = some v) : bag.GetOk k = (v, true) := by
  simp [StateBag.GetOk, h]

theorem GetOk_eq_true_iff (bag : StateBag) (k : String) (v : Value) :
    bag.GetOk k = (v, true) ↔ bag.data k = some v := by
  unfold StateBag.GetOk
  cases bag.data k <;> simp

/-- C3: if the bag has no entry under `image_id` after the runner returns,
`Run` returns a nil artifact together with a non-nil error, whatever the
runner reported. -/
theorem Run_missing_image_id_is_error {ω : Type} (deps : Deps) (sem : StepSem ω)
    (b : Builder) (ctx : Context) (ui : Ui) (hook : Hook) (w : ω)
    (h : ((Builder.Run.report deps sem b ctx ui hook w).bag.GetOk ImageID).2 = false) :
    b.Run deps sem ctx ui hook w = .ret none (some "Failed to get image id:<nil>") := by
  rw [GetOk_snd_false_iff] at h
  simp [Builder.Run, StateBag.GetOk, h]

/-- Witness for C3: eight steps that all continue and never write the image
identifier; the runner reports success and `Run` still fails. -/
theorem Run_missing_image_id_is_error_witness :
    (Builder.Run.report sampleDeps semContinue sampleBuilder ctxNever sampleUi sampleHook
      ()).success = true ∧
    sampleBuilder.Run sampleDeps semContinue ctxNever sampleUi sampleHook () =
      .ret none (some "Failed to get image id:<nil>") :=
  ⟨by decide,
   Run_missing_image_id_is_error sampleDeps semContinue sampleBuilder ctxNever sampleUi
     sampleHook () (by decide)⟩

/-- C5: if the run ends with a string `v` stored under `image_id`, `Run`
returns a nil error and an artifact whose `ImageID` is `v`, bound to the
image service of the configured zone. -/
theorem Run_returns_artifact_of_image_id {ω : Type} (deps : Deps) (sem : StepSem ω)
    (b : Builder) (ctx : Context) (ui : Ui) (hook : Hook) (w : ω) (v : String)
    (h : (Builder.Run.report deps sem b ctx ui hook w).bag.GetOk ImageID = (.str v, true)) :
    b.Run deps sem ctx ui hook w =
      .ret (some { ImageID := v, ImageService := deps.Image b.config b.config.Zone }) none := by
  rw [GetOk_eq_true_iff] at h
  simp [Builder.Run, StateBag.GetOk, h]

/-- Witness for C5: eight steps that all continue, the last one writing
`img-1` under `image_id`. -/
theorem Run_returns_artifact_of_image_id_witness :
    (Builder.Run.report sampleDeps semCapture sampleBuilder ctxNever sampleUi sampleHook
      ()).success = true ∧
    sampleBuilder.Run sampleDeps semCapture ctxNever sampleUi sampleHook () =
      .ret (some { ImageID := "img-1",
                   ImageService := sampleDeps.Image sampleBuilder.config
                     sampleBuilder.config.Zone }) none :=
  ⟨by decide,
   Run_returns_artifact_of_image_id sampleDeps semCapture sampleBuilder ctxNever sampleUi
     sampleHook () "img-1" (by decide)⟩

/-- C4, as stated, fails: when the capture step writes the image identifier
and then returns `Halt`, `Run` returns an artifact and a nil error. -/
theorem Run_halted_with_image_id_returns_artifact :
    (Builder.Run.report sampleDeps semCaptureThenHalt sampleBuilder ctxNever sampleUi
      sampleHook ()).someStepHalted ∧
    (Builder.Run.report sampleDeps semCaptureThenHalt sampleBuilder ctxNever sampleUi
      sampleHook ()).success = false ∧
    sampleBuilder.Run sampleDeps semCaptureThenHalt ctxNever sampleUi sampleHook () =
      .ret (some { ImageID := "img-1", ImageService := { id := 5 } }) none :=
  ⟨⟨8, by decide⟩, by decide, by decide⟩

/-- C4, amended: in every run in which some step returned `Halt` or the
context was cancelled, `Run` returns an error and no artifact exactly when
the bag has no entry under `image_id` when the runner returns; the halt or
cancellation itself is not inspected. -/
theorem Run_halted_error_iff_no_image_id {ω : Type} (deps : Deps) (sem : StepSem ω)
    (b : Builder) (ctx : Context) (ui : Ui) (hook : Hook) (w : ω)
    (_h : (Builder.Run.report deps sem b ctx ui hook w).someStepHalted ∨ ctx.wasCancelled) :
    (∃ e, b.Run deps sem ctx ui hook w = .ret none (some e)) ↔
      ((Builder.Run.report deps sem b ctx ui hook w).bag.GetOk ImageID).2 = false := by
  rw [GetOk_snd_false_iff]
  cases hd : (Builder.Run.report deps sem b ctx ui hook w).bag.data ImageID with
  | none => simp [Builder.Run, StateBag.GetOk, hd]
  | some v => cases v <;> simp [Builder.Run, StateBag.GetOk, hd]

/-- Witness for C4 (amended): the instance-creation step halts, or the
context is cancelled before step 4; nothing is stored under `image_id`, and
`Run` returns an error. -/
theorem Run_halted_error_iff_no_image_id_witness :
    (Builder.Run.report sampleDeps semHaltAtCreate sampleBuilder ctxNever sampleUi
      sampleHook ()).someStepHalted ∧
    (∃ e, sampleBuilder.Run sampleDeps semHaltAtCreate ctxNever sampleUi sampleHook () =
      .ret none (some e)) ∧
    ctxCancelAt4.wasCancelled ∧
    (∃ e, sampleBuilder.Run sampleDeps semCapture ctxCancelAt4 sampleUi sampleHook () =
      .ret none (some e)) :=
  ⟨⟨3, by decide⟩,
   (Run_halted_error_iff_no_image_id sampleDeps semHaltAtCreate sampleBuilder ctxNever
     sampleUi sampleHook () (Or.inl ⟨3, by decide⟩)).2 (by decide),
   ⟨4, by decide⟩,
   (Run_halted_error_iff_no_image_id sampleDeps semCapture sampleBuilder ctxCancelAt4
     sampleUi sampleHook () (Or.inr ⟨4, by decide⟩)).2 (by decide)⟩

/-- C10, as stated, fails: when a value that is not a string is stored under
`image_id`, the unchecked assertion in `Run` faults; no failure is returned. -/
theorem Run_non_string_image_id_faults :
    (Builder.Run.report sampleDeps semCaptureNonString sampleBuilder ctxNever sampleUi
      sampleHook ()).bag.GetOk ImageID = (.other 42, true) ∧
    sampleBuilder.Run sampleDeps semCaptureNonString ctxNever sampleUi sampleHook () = .fault :=
  ⟨by decide, by decide⟩

/-- C10, amended: when the value under `image_id`, if there is one, is a
string, the post-run check of `Run` returns without faulting, either an
artifact with no error or an error with no artifact, and it returns the
error exactly when the bag has no entry under `image_id`. -/
theorem Run_post_check_total_on_string_ids {ω : Type} (deps : Deps) (sem : StepSem ω)
    (b : Builder) (ctx : Context) (ui : Ui) (hook : Hook) (w : ω)
    (h : ∀ v, (Builder.Run.report deps sem b ctx ui hook w).bag.GetOk ImageID = (v, true) →
      ∃ s, v = .str s) :
    b.Run deps sem ctx ui hook w ≠ .fault ∧
    ((∃ a, b.Run deps sem ctx ui hook w = .ret (some a) none) ∨
      (∃ e, b.Run deps sem ctx ui hook w = .ret none (some e))) ∧
    ((∃ e, b.Run deps sem ctx ui hook w = .ret none (some e)) ↔
      ((Builder.Run.report deps sem b ctx ui hook w).bag.GetOk ImageID).2 = false) := by
  rw [GetOk_snd_false_iff]
  cases hd : (Builder.Run.report deps sem b ctx ui hook w).bag.data ImageID with
  | none => simp [Builder.Run, StateBag.GetOk, hd]
  | some v =>
    obtain ⟨s, rfl⟩ := h v (GetOk_eq_of_data _ _ _ hd)
    simp [Builder.Run, StateBag.GetOk, hd]

/-- Witness for C10 (amended): a run whose capture step stores a string. -/
theorem Run_post_check_total_on_string_ids_witness :
    sampleBuilder.Run sampleDeps semCapture ctxNever sampleUi sampleHook () ≠ .fault :=
  (Run_post_check_total_on_string_ids sampleDeps semCapture sampleBuilder ctxNever sampleUi
    sampleHook ()
    (fun v hv => ⟨"img-1", by
      have h0 : (Builder.Run.report sampleDeps semCapture sampleBuilder ctxNever sampleUi
        sampleHook ()).bag.GetOk ImageID = (.str "img-1", true) := by decide
      rw [h0] at hv
      exact (Prod.mk.inj hv).1.symm⟩)).1

/-! ## The step sequence handed to the runner -/

/-- C9: the step list given to the runner is the same sequence of eight
steps for every configuration, in the order ensure security group, ensure
keypair, create instance, ensure elastic IP, connect remote, run
provisioners, shut down instance, capture image; the connect step is given
`getHost` and `getSSHConfig`; and the runner is started on exactly this list
with a bag seeded with the config, the UI and the hook. -/
theorem Run_steps_fixed_and_bag_seeded (deps : Deps) (b : Builder) (ui : Ui) (hook : Hook) :
    (Builder.Run.steps deps b).map Step.kind =
      [.EnsureSecurityGroup, .EnsureKeypair, .CreateInstance, .EnsureElasticIP,
       .ConnectRemote, .RunProvisioners, .ShutdownInstance, .CaptureImage] ∧
    (Builder.Run.steps deps b).length = 8 ∧
    (∀ (deps2 : Deps) (b2 : Builder),
      (Builder.Run.steps deps2 b2).map Step.kind = (Builder.Run.steps deps b).map Step.kind) ∧
    (Builder.Run.steps deps b).get? 4 =
      some (.StepConnect b.config.Comm (b.getHost deps) (b.getSSHConfig deps)) ∧
    (Builder.Run.setup b ui hook).GetOk BuilderConfig = (.config b.config, true) ∧
    (Builder.Run.setup b ui hook).GetOk UI = (.ui ui, true) ∧
    (Builder.Run.setup b ui hook).GetOk "hook" = (.hook hook, true) ∧
    (∀ (ω : Type) (sem : StepSem ω) (ctx : Context) (w : ω),
      Builder.Run.report deps sem b ctx ui hook w =
        Runner.Run { Steps := Builder.Run.steps deps b } sem ctx w
          (Builder.Run.setup b ui hook)) := by
  refine ⟨rfl, rfl, fun _ _ => rfl, rfl, ?_, ?_, ?_, fun _ _ _ _ => rfl⟩
  · simp [Builder.Run.setup, StateBag.GetOk, StateBag.Put, BuilderConfig, UI]
  · simp [Builder.Run.setup, StateBag.GetOk, StateBag.Put, UI]
  · simp [Builder.Run.setup, StateBag.GetOk, StateBag.Put]

/-! ## The runner's halt and rollback protocol -/

theorem unwind_log {ω : Type} (sem : StepSem ω) (l : List (Nat × Step)) (w : ω)
    (bag : StateBag) :
    (Runner.unwind sem l w bag).1 = l.map (fun e => Event.cleaned e.1) := by
  induction l generalizing w bag with
  | nil => rfl
  | cons e rest ih =>
    obtain ⟨pos, s⟩ := e
    simp only [Runner.unwind, List.map_cons]
    rw [← ih (sem.cleanup s w bag).1 (sem.cleanup s w bag).2]

theorem unwind_state {ω : Type} (sem : StepSem ω) (l : List (Nat × Step)) (w : ω)
    (bag : StateBag) :
    (Runner.unwind sem l w bag).2 = cleanupAll sem (l.map Prod.snd) w bag := by
  induction l generalizing w bag with
  | nil => rfl
  | cons e rest ih =>
    obtain ⟨pos, s⟩ := e
    simp only [Runner.unwind, List.map_cons, cleanupAll]
    rw [← ih (sem.cleanup s w bag).1 (sem.cleanup s w bag).2]

theorem cleanupAll_recording_journal {ω : Type} (sem : StepSem ω) (l : List Step) (w : ω)
    (j : List Call) (bag : StateBag) :
    (cleanupAll sem.recording l (w, j) bag).1.2 = j ++ l.map Call.cleanup := by
  induction l generalizing w j bag with
  | nil => simp [cleanupAll]
  | cons s rest ih =>
    show (cleanupAll sem.recording rest ((sem.cleanup s w bag).1, j ++ [Call.cleanup s])
      (sem.cleanup s w bag).2).1.2 = _
    rw [ih]
    simp

/-- The shape of a forward pass: either no step halted, or the step at
offset `n` halted after `n` continuing steps; in both cases the executed
steps are an initial segment of the list, and the world and bag are what the
forward actions of that segment produce. -/
theorem forward_shape {ω : Type} (sem : StepSem ω) (ctx : Context) (steps : List Step)
    (pos : Nat) (w : ω) (bag : StateBag) :
    (∃ n, n ≤ steps.length ∧
      (Runner.forward sem ctx pos steps w bag).executed.map Prod.fst = List.range' pos n ∧
      (Runner.forward sem ctx pos steps w bag).executed.map Prod.snd = steps.take n ∧
      ((Runner.forward sem ctx pos steps w bag).world,
        (Runner.forward sem ctx pos steps w bag).bag) = runAll sem (steps.take n) w bag ∧
      (Runner.forward sem ctx pos steps w bag).log =
        (List.range' pos n).map (fun i => Event.ran i .ActionContinue)) ∨
    (∃ n, n < steps.length ∧
      (Runner.forward sem ctx pos steps w bag).executed.map Prod.fst =
        List.range' pos (n + 1) ∧
      (Runner.forward sem ctx pos steps w bag).executed.map Prod.snd = steps.take (n + 1) ∧
      ((Runner.forward sem ctx pos steps w bag).world,
        (Runner.forward sem ctx pos steps w bag).bag) =
          runAll sem (steps.take (n + 1)) w bag ∧
      (Runner.forward sem ctx pos steps w bag).log =
        (List.range' pos n).map (fun i => Event.ran i .ActionContinue) ++
          [Event.ran (pos + n) .ActionHalt]) := by
  induction steps generalizing pos w bag with
  | nil =>
    exact Or.inl ⟨0, by simp, by simp [Runner.forward], by simp [Runner.forward],
      by simp [Runner.forward, runAll], by simp [Runner.forward]⟩
  | cons s rest ih =>
    by_cases hstop : (bag.halted || ctx.cancelled pos) = true
    · exact Or.inl ⟨0, by simp, by simp [Runner.forward, hstop],
        by simp [Runner.forward, hstop], by simp [Runner.forward, hstop, runAll],
        by simp [Runner.forward, hstop]⟩
    · rcases hrun : sem.run s w bag with ⟨a, w1, bag1⟩
      cases a with
      | ActionHalt =>
        refine Or.inr ⟨0, by simp, ?_, ?_, ?_, ?_⟩
        · simp [Runner.forward, hstop, hrun]
        · simp [Runner.forward, hstop, hrun]
        · simp [Runner.forward, hstop, hrun, runAll]
        · simp [Runner.forward, hstop, hrun]
      | ActionContinue =>
        rcases ih (pos + 1) w1 bag1 with
          ⟨n, hn, hexec, hsteps, hst, hlog⟩ | ⟨n, hn, hexec, hsteps, hst, hlog⟩
        · refine Or.inl ⟨n + 1, by simpa using hn, ?_, ?_, ?_, ?_⟩
          · simp [Runner.forward, hstop, hrun, hexec, List.range'_succ]
          · simp [Runner.forward, hstop, hrun, hsteps]
          · simpa [Runner.forward, hstop, hrun, runAll] using hst
          · simp [Runner.forward, hstop, hrun, hlog, List.range'_succ]
        · refine Or.inr ⟨n + 1, by simpa using hn, ?_, ?_, ?_, ?_⟩
          · simp [Runner.forward, hstop, hrun, hexec, List.range'_succ]
          · simp [Runner.forward, hstop, hrun, hsteps]
          · simpa [Runner.forward, hstop, hrun, runAll] using hst
          · simp [Runner.forward, hstop, hrun, hlog, List.range'_succ, Nat.add_assoc,
              Nat.add_comm 1 n]

/-- The journal the steps write during a forward pass: one entry per step of
the initial segment that ran, in order, all continuing except a final
halting one. -/
theorem forward_recording_journal {ω : Type} (sem : StepSem ω) (ctx : Context)
    (steps : List Step) (pos : Nat) (w : ω) (j : List Call) (bag : StateBag) :
    (∃ n, n ≤ steps.length ∧
      (Runner.forward sem.recording ctx pos steps (w, j) bag).world.2 =
        j ++ (steps.take n).map (fun s => Call.run s .ActionContinue) ∧
      (Runner.forward sem.recording ctx pos steps (w, j) bag).log =
        (List.range' pos n).map (fun i => Event.ran i .ActionContinue)) ∨
    (∃ n sk, steps.get? n = some sk ∧
      (Runner.forward sem.recording ctx pos steps (w, j) bag).world.2 =
        j ++ (steps.take n).map (fun s => Call.run s .ActionContinue) ++
          [Call.run sk .ActionHalt] ∧
      (Runner.forward sem.recording ctx pos steps (w, j) bag).log =
        (List.range' pos n).map (fun i => Event.ran i .ActionContinue) ++
          [Event.ran (pos + n) .ActionHalt]) := by
  induction steps generalizing pos w j bag with
  | nil => exact Or.inl ⟨0, by simp, by simp [Runner.forward], by simp [Runner.forward]⟩
  | cons s rest ih =>
    by_cases hstop : (bag.halted || ctx.cancelled pos) = true
    · exact Or.inl ⟨0, by simp, by simp [Runner.forward, hstop],
        by simp [Runner.forward, hstop]⟩
    · rcases hrun : sem.run s w bag with ⟨a, w1, bag1⟩
      have hrec : sem.recording.run s (w, j) bag = (a, (w1, j ++ [Call.run s a]), bag1) := by
        simp [StepSem.recording, hrun]
      cases a with
      | ActionHalt =>
        refine Or.inr ⟨0, s, by simp, ?_, ?_⟩
        · simp [Runner.forward, hstop, hrec]
        · simp [Runner.forward, hstop, hrec]
      | ActionContinue =>
        rcases ih (pos + 1) w1 (j ++ [Call.run s .ActionContinue]) bag1 with
          ⟨n, hn, hj, hlog⟩ | ⟨n, sk, hsk, hj, hlog⟩
        · refine Or.inl ⟨n + 1, by simpa using hn, ?_, ?_⟩
          · simp [Runner.forward, hstop, hrec, hj]
          · simp [Runner.forward, hstop, hrec, hlog, List.range'_succ]
        · refine Or.inr ⟨n + 1, sk, by simpa using hsk, ?_, ?_⟩
          · simp [Runner.forward, hstop, hrec, hj]
          · simp [Runner.forward, hstop, hrec, hlog, List.range'_succ, Nat.add_assoc,
              Nat.add_comm 1 n]

/-- Recording does not change what the runner does: the forward pass over the
recording steps has the same log as over the steps themselves. -/
theorem forward_recording_log {ω : Type} (sem : StepSem ω) (ctx : Context)
    (steps : List Step) (pos : Nat) (w : ω) (j : List Call) (bag : StateBag) :
    (Runner.forward sem.recording ctx pos steps (w, j) bag).log =
      (Runner.forward sem ctx pos steps w bag).log := by
  induction steps generalizing pos w j bag with
  | nil => simp [Runner.forward]
  | cons s rest ih =>
    by_cases hstop : (bag.halted || ctx.cancelled pos) = true
    · simp [Runner.forward, hstop]
    · rcases hrun : sem.run s w bag with ⟨a, w1, bag1⟩
      have hrec : sem.recording.run s (w, j) bag = (a, (w1, j ++ [Call.run s a]), bag1) := by
        simp [StepSem.recording, hrun]
      cases a with
      | ActionHalt => simp [Runner.forward, hstop, hrec, hrun]
      | ActionContinue => simp [Runner.forward, hstop, hrec, hrun, ih]

theorem Run_log {ω : Type} (r : Runner) (sem : StepSem ω) (ctx : Context) (w : ω)
    (state : StateBag) :
    (r.Run sem ctx w state).log =
      (Runner.forward sem ctx 1 r.Steps w state).log ++
        ((Runner.forward sem ctx 1 r.Steps w state).executed.map Prod.fst).reverse.map
          Event.cleaned := by
  simp only [Runner.Run]
  rw [unwind_log, ← List.map_reverse, List.map_map]
  rfl

theorem Run_state {ω : Type} (r : Runner) (sem : StepSem ω) (ctx : Context) (w : ω)
    (state : StateBag) :
    ((r.Run sem ctx w state).world, (r.Run sem ctx w state).bag) =
      cleanupAll sem ((Runner.forward sem ctx 1 r.Steps w state).executed.map Prod.snd).reverse
        (Runner.forward sem ctx 1 r.Steps w state).world
        (Runner.forward sem ctx 1 r.Steps w state).bag := by
  simp only [Runner.Run]
  rw [← List.map_reverse, ← unwind_state]

theorem halt_mem_forward_log {ω : Type} (r : Runner) (sem : StepSem ω) (ctx : Context)
    (w : ω) (state : StateBag) (k : Nat)
    (h : Event.ran k .ActionHalt ∈ (r.Run sem ctx w state).log) :
    Event.ran k .ActionHalt ∈ (Runner.forward sem ctx 1 r.Steps w state).log := by
  rw [Run_log] at h
  simpa using h

/-- C8: for every step sequence and every step behaviour, if the step at
position `k` returns `Halt`, then `1 ≤ k ≤ length`, and
(a) the runner's log is the forward actions of steps `1..k` in order (the
first `k - 1` continuing, the `k`-th halting) followed by the compensating
actions of steps `k, k-1, ..., 1`;
(b) the world and bag the runner ends with are exactly those obtained by
applying the forward actions of steps `1..k` in order and then the
compensating actions of steps `k, ..., 1`, so no later step acts on them and
every compensating action does;
(c) the journal written by the steps themselves lists the calls they
received: the forward action of each of steps `1..k` once, in order, then
the compensating action of each of steps `k, ..., 1` once, and nothing
else. -/
theorem Runner_halt_cleans_up_in_reverse {ω : Type} (sem : StepSem ω) (ctx : Context)
    (steps : List Step) (w : ω) (state : StateBag) (k : Nat)
    (h : Event.ran k .ActionHalt ∈ (Runner.Run { Steps := steps } sem ctx w state).log) :
    (Runner.Run { Steps := steps } sem ctx w state).log =
      (List.range' 1 (k - 1)).map (fun i => Event.ran i .ActionContinue) ++
        [Event.ran k .ActionHalt] ++
        (List.range' 1 k).reverse.map Event.cleaned ∧
    1 ≤ k ∧ k ≤ steps.length ∧
    ((Runner.Run { Steps := steps } sem ctx w state).world,
      (Runner.Run { Steps := steps } sem ctx w state).bag) =
        cleanupAll sem (steps.take k).reverse
          (runAll sem (steps.take k) w state).1 (runAll sem (steps.take k) w state).2 ∧
    ∃ sk, steps.get? (k - 1) = some sk ∧
      (Runner.Run { Steps := steps } sem.recording ctx (w, []) state).world.2 =
        (steps.take (k - 1)).map (fun s => Call.run s .ActionContinue) ++
          [Call.run sk .ActionHalt] ++
          (steps.take k).reverse.map Call.cleanup := by
  have hf := halt_mem_forward_log { Steps := steps } sem ctx w state k h
  have hg : Event.ran k .ActionHalt ∈
      (Runner.forward sem.recording ctx 1 steps (w, []) state).log := by
    rw [forward_recording_log]
    exact hf
  rcases forward_shape sem ctx steps 1 w state with
    ⟨n, _, _, _, _, hlog⟩ | ⟨n, hn, hexec, hsteps, hst, hlog⟩
  · rw [hlog] at hf
    simp at hf
  rw [hlog] at hf
  simp at hf
  subst hf
  refine ⟨?_, by omega, by omega, ?_, ?_⟩
  · rw [Run_log, hlog, hexec]
    simp [Nat.add_comm 1 n]
  · rw [Run_state, hsteps, Nat.add_comm 1 n, ← hst]
  · rcases forward_shape sem.recording ctx steps 1 (w, []) state with
      ⟨m, _, _, _, _, hlog1⟩ | ⟨m, _, _, hsteps1, _, hlog1⟩
    · rw [hlog1] at hg
      simp at hg
    rw [hlog1] at hg
    simp at hg
    rcases forward_recording_journal sem ctx steps 1 w [] state with
      ⟨p, _, _, hlog2⟩ | ⟨p, sk, hsk, hj, hlog2⟩
    · have hmem : Event.ran (1 + m) .ActionHalt ∈
          (List.range' 1 p).map (fun i => Event.ran i .ActionContinue) := by
        rw [← hlog2, hlog1]
        simp
      simp at hmem
    · have hp : p = n := by
        rw [hlog2] at hlog1
        have hlen := congrArg List.length hlog1
        simp at hlen
        omega
      subst hp
      have hm : m = p := by omega
      subst hm
      refine ⟨sk, by simpa using hsk, ?_⟩
      have hR := congrArg (fun x => x.1.2)
        (Run_state { Steps := steps } sem.recording ctx (w, []) state)
      simp only at hR
      rw [hR, hsteps1]
      have hc : (cleanupAll sem.recording (steps.take (m + 1)).reverse
          (Runner.forward sem.recording ctx 1 steps (w, []) state).world
          (Runner.forward sem.recording ctx 1 steps (w, []) state).bag).1.2 =
          (Runner.forward sem.recording ctx 1 steps (w, []) state).world.2 ++
            (steps.take (m + 1)).reverse.map Call.cleanup :=
        cleanupAll_recording_journal sem (steps.take (m + 1)).reverse
          (Runner.forward sem.recording ctx 1 steps (w, []) state).world.1
          (Runner.forward sem.recording ctx 1 steps (w, []) state).world.2
          (Runner.forward sem.recording ctx 1 steps (w, []) state).bag
      rw [hc, hj]
      simp [Nat.add_comm 1 m]

/-- Witness for C8: on the builder's eight steps with the third one halting,
the log is run 1, 2, 3 then cleanup 3, 2, 1, and the steps' own journal shows
exactly the first three steps called, then cleaned up in reverse; the five
later steps receive no call. -/
theorem Runner_halt_cleans_up_in_reverse_witness :
    (Runner.Run { Steps := Builder.Run.steps sampleDeps sampleBuilder } semHaltAtCreate
      ctxNever () (Builder.Run.setup sampleBuilder sampleUi sampleHook)).log =
      [Event.ran 1 .ActionContinue, Event.ran 2 .ActionContinue, Event.ran 3 .ActionHalt,
       Event.cleaned 3, Event.cleaned 2, Event.cleaned 1] ∧
    (Runner.Run { Steps := Builder.Run.steps sampleDeps sampleBuilder }
      semHaltAtCreate.recording ctxNever ((), [])
      (Builder.Run.setup sampleBuilder sampleUi sampleHook)).world.2 =
      [Call.run .StepEnsureSecurityGroup .ActionContinue,
       Call.run .StepEnsureKeypair .ActionContinue,
       Call.run .StepCreateVM .ActionHalt,
       Call.cleanup .StepCreateVM,
       Call.cleanup .StepEnsureKeypair,
       Call.cleanup .StepEnsureSecurityGroup] :=
  ⟨(Runner_halt_cleans_up_in_reverse semHaltAtCreate ctxNever
      (Builder.Run.steps sampleDeps sampleBuilder) ()
      (Builder.Run.setup sampleBuilder sampleUi sampleHook) 3 (by decide)).1,
   match (Runner_halt_cleans_up_in_reverse semHaltAtCreate ctxNever
      (Builder.Run.steps sampleDeps sampleBuilder) ()
      (Builder.Run.setup sampleBuilder sampleUi sampleHook) 3 (by decide)).2.2.2.2 with
   | ⟨_, hsk, hj⟩ => by
     have h2 : some Step.StepCreateVM = some _ := hsk
     cases h2
     exact hj⟩

end Qingcloud
